import Mathlib

/-! Shallow embedding of winpcapy/winpcapy.py: the device directory
(WinPcapDevices), the glob matching it delegates to the fnmatch module,
and the capture session (WinPcap) with its open/close/send/stop/run
methods. Machine-level native memory is modelled as lists of byte
values, native handles as numbers, and the Python None as Option.none.
Native pcap calls are recorded explicitly, since several properties are
about which native calls happen and with which arguments. -/

namespace Winpcapy

/-- Membership test for a character-class body, with the range semantics
of the regular expression that fnmatch.translate produces: an item x-y
denotes the inclusive codepoint range, a dash at the start or at the end
of the body is a literal dash, and every other character denotes itself
(ASCII domain in this model). -/
def classMem : List Char → Char → Bool
  | [], _ => false
  | [x], c => x == c
  | [x, '-'], c => x == c || c == '-'
  | x :: '-' :: y :: rest, c => (x ≤ c && c ≤ y) || classMem rest c
  | x :: rest, c => x == c || classMem rest c

/-- Scans a character-class body for its closing bracket: returns the
body and the rest of the pattern after the bracket, or none when no
closing bracket exists. -/
def scanClass : List Char → Option (List Char × List Char)
  | [] => none
  | ']' :: rest => some ([], rest)
  | c :: rest =>
      match scanClass rest with
      | some (body, r) => some (c :: body, r)
      | none => none

/-- Splits the pattern text that follows an opening bracket into the
triple (negated, class body, remaining pattern), following
fnmatch.translate: a leading bang negates, a closing bracket placed
first (possibly after the bang) is a literal member, and a bracket with
no closing bracket is no class at all. -/
def splitClass : List Char → Option (Bool × List Char × List Char)
  | '!' :: ']' :: u =>
      match scanClass u with
      | some (body, r) => some (true, ']' :: body, r)
      | none => none
  | '!' :: t =>
      match scanClass t with
      | some (body, r) => some (true, body, r)
      | none => none
  | ']' :: u =>
      match scanClass u with
      | some (body, r) => some (false, ']' :: body, r)
      | none => none
  | t =>
      match scanClass t with
      | some (body, r) => some (false, body, r)
      | none => none

/-- Fuel-indexed step of the glob matcher of the fnmatch module: a star
matches any run of characters, a question mark one character, a bracket
a character class, everything else itself. Every recursive call strictly
decreases the sum of the lengths of pattern and text while consuming one
unit of fuel, so fuel equal to that sum keeps the fallback unreachable;
the fallback itself agrees with the only state of measure zero, both
lists empty. -/
def globMatchF : Nat → List Char → List Char → Bool
  | 0, p, s => p.isEmpty && s.isEmpty
  | n + 1, p, s =>
      match p, s with
      | [], [] => true
      | '*' :: ps, t =>
          globMatchF n ps t ||
            (match t with
             | [] => false
             | _ :: cs => globMatchF n ('*' :: ps) cs)
      | '?' :: ps, _ :: cs => globMatchF n ps cs
      | '[' :: ps, t =>
          (match splitClass ps with
           | none =>
               (match t with
                | '[' :: cs => globMatchF n ps cs
                | _ => false)
           | some (neg, body, rest) =>
               (match t with
                | c :: cs => (classMem body c != neg) && globMatchF n rest cs
                | [] => false))
      | q :: ps, c :: cs => q == c && globMatchF n ps cs
      | _, _ => false

/-- The glob matcher, run with sufficient fuel. -/
def globMatch (pat text : List Char) : Bool :=
  globMatchF (pat.length + text.length) pat text

/-- os.path.normcase as on Windows (ntpath), the platform of this
package: forward slashes become backslashes and letters are lowercased
(ASCII folding in this model). -/
def normcase (s : String) : String :=
  String.mk (s.data.map (fun c => if c = '/' then '\\' else c.toLower))

/-- fnmatch.fnmatch, the matcher the source calls: both the name and the
pattern are case-normalized before matching, so on Windows the
comparison is case-insensitive. -/
def fnmatch (name pat : String) : Bool :=
  globMatch (normcase pat).data (normcase name).data

/-- fnmatch.fnmatchcase, the case-sensitive variant of the same module,
with no normalization; it formalizes the case-sensitive matching that
the specification describes, for comparison with what the source calls. -/
def fnmatchcase (name pat : String) : Bool :=
  globMatch pat.data name.data

/-- Pure model of the Python dict from device name to description that
list_devices builds: insertion keeps first-insertion key order and a
repeated key overwrites the stored value in place (last write wins). -/
def dictInsert (l : List (String × String)) (kv : String × String) :
    List (String × String) :=
  if l.any (fun p => p.1 == kv.1) then
    l.map (fun p => if p.1 == kv.1 then (p.1, kv.2) else p)
  else
    l ++ [kv]

/-- WinPcapDevices.list_devices: builds the name-to-description dict by
iterating the device directory in native list order; the input list
gives each device of the directory as a (name, description) pair, in
that order. -/
def list_devices (devs : List (String × String)) : List (String × String) :=
  devs.foldl dictInsert []

/-- WinPcapDevices.get_matching_device: the first entry of the listing
whose description fnmatch-matches the glob, as a (name, description)
pair; none models the (None, None) return. -/
def get_matching_device (devs : List (String × String)) (glob : String) :
    Option (String × String) :=
  (list_devices devs).find? (fun nd => fnmatch nd.2 glob)

/-- Python-level exceptional outcomes the embedded methods can produce:
a failed assert statement, or the PcapFindDevicesException raised with a
message. -/
inductive PyExn
  | assertFail
  | findDevicesError (msg : String)
deriving DecidableEq, Repr

/-- Result of a Python call: a normal value or a raised exception. -/
inductive PyResult (α : Type)
  | ok (a : α)
  | exn (e : PyExn)
deriving DecidableEq, Repr

/-- State of a WinPcapDevices instance together with the native list it
points at: all_devices mirrors the _all_devices attribute (none models
the Python None), and freed records whether pcap_freealldevs has
already run on that native memory. -/
structure DevicesState where
  all_devices : Option (List (String × String))
  freed : Bool
deriving DecidableEq, Repr

/-- A fresh WinPcapDevices instance: _all_devices is None. -/
def devicesInit : DevicesState := ⟨none, false⟩

/-- WinPcapDevices.__enter__: asserts _all_devices is None, performs the
native pcap_findalldevs call (whose outcome is the nativeRes argument:
an error message on status -1, else the device list), raises
PcapFindDevicesException on failure, and stores the list on success. -/
def devicesEnter (nativeRes : Except String (List (String × String)))
    (s : DevicesState) : PyResult DevicesState :=
  match s.all_devices with
  | some _ => .exn .assertFail
  | none =>
      match nativeRes with
      | .error msg => .exn (.findDevicesError msg)
      | .ok devs => .ok ⟨some devs, false⟩

/-- WinPcapDevices.__exit__: frees the native list when the attribute is
set, but never clears the attribute itself; the Bool records whether
pcap_freealldevs was called. -/
def devicesExit (s : DevicesState) : DevicesState × Bool :=
  match s.all_devices with
  | some _ => (⟨s.all_devices, true⟩, true)
  | none => (s, false)

/-- Outcome of WinPcapDevices.pcap_interface_iterator: either the guard
raises PcapFindDevicesException, or the traversal yields the nodes of
the native linked list, with a flag recording whether that memory has
already been freed. -/
inductive IterOutcome
  | raised
  | yields (devs : List (String × String)) (fromFreed : Bool)
deriving DecidableEq, Repr

/-- WinPcapDevices.pcap_interface_iterator: raises only when the
attribute is the Python None; otherwise it walks the native linked
list, freed or not. -/
def pcap_interface_iterator (s : DevicesState) : IterOutcome :=
  match s.all_devices with
  | none => .raised
  | some devs => .yields devs s.freed

/-- Kinds of Python values the user can hand over as the run callback,
classified the way the inspect module classifies them. -/
inductive PyCallable
  | noneV
  | func
  | method
  | callableObj
deriving DecidableEq, Repr

/-- inspect.isfunction: true exactly for plain functions. -/
def isfunction : PyCallable → Bool
  | .func => true
  | _ => false

/-- inspect.ismethod: true exactly for bound methods. -/
def ismethod : PyCallable → Bool
  | .method => true
  | _ => false

/-- Header fields of a native pcap_pkthdr: timestamp, caplen (bytes
actually captured) and len (bytes on the wire, at least caplen when the
frame was truncated). -/
structure PktHdr where
  tv_sec : Nat
  tv_usec : Nat
  caplen : Nat
  len : Nat
deriving DecidableEq, Repr

/-- A native packet event: its header and the native memory readable at
the data pointer, whose first caplen bytes are the captured data and
whose remainder is unrelated native memory. -/
structure Packet where
  hdr : PktHdr
  mem : List Nat
deriving DecidableEq, Repr

/-- ctypes.string_at applied to a pointer and a size: an independently
owned copy of the first n bytes of the memory readable at the pointer. -/
def string_at (mem : List Nat) (n : Nat) : List Nat := mem.take n

/-- WinPcap.packet_handler: asserts that the registered callback is a
plain function or a bound method, then copies header.contents.len bytes
(the on-wire length, not caplen) out of native memory with
ctypes.string_at and passes them to the callback; the ok value is the
byte string handed to the callback. -/
def packet_handler (cb : PyCallable) (hdr : PktHdr) (mem : List Nat) :
    PyResult (List Nat) :=
  if isfunction cb || ismethod cb then .ok (string_at mem hdr.len)
  else .exn .assertFail

/-- The native calls a WinPcap method can issue, with the arguments the
Python code passes; breakloop carries an Option because self._handle
can still be the Python None (a null pointer at the native boundary)
when stop runs. -/
inductive NativeCall
  | openLive
  | closeHandle (h : Nat)
  | sendpacket (h : Nat) (buf : List Nat) (buflen : Nat)
  | breakloop (h : Option Nat)
  | loopCall (h : Nat) (limit : Int)
deriving DecidableEq, Repr

/-- State of a WinPcap instance: _handle (none is the Python None;
some 0 models a stored NULL pointer, as returned by a failed native
open) and _callback. -/
structure WinPcapState where
  handle : Option Nat
  callback : PyCallable
deriving DecidableEq, Repr

/-- A fresh WinPcap instance: _handle and _callback are None. -/
def winPcapInit : WinPcapState := ⟨none, .noneV⟩

/-- Result of one WinPcap method call: the Python-level result, the
native calls issued in order, and the instance state afterwards. -/
structure OpResult (α : Type) where
  res : PyResult α
  calls : List NativeCall
  state : WinPcapState
deriving DecidableEq, Repr

/-- WinPcap.__enter__: asserts _handle is None, then stores whatever
pcap_open_live returned without checking it; openRes is the native
return value, 0 modelling a NULL handle. -/
def wpEnter (openRes : Nat) (s : WinPcapState) : OpResult Unit :=
  match s.handle with
  | some _ => ⟨.exn .assertFail, [], s⟩
  | none => ⟨.ok (), [.openLive], ⟨some openRes, s.callback⟩⟩

/-- WinPcap.__exit__: calls pcap_close on the native handle when
_handle is set, but never clears _handle. -/
def wpExit (s : WinPcapState) : OpResult Unit :=
  match s.handle with
  | some h => ⟨.ok (), [.closeHandle h], s⟩
  | none => ⟨.ok (), [], s⟩

/-- WinPcap.send: asserts _handle is not None, copies the buffer into a
fresh native buffer of length len(buf) and calls pcap_sendpacket with
it; the native status (the sendStatus argument) is discarded exactly as
in the source, so it cannot influence the result. -/
def wpSend (buf : List Nat) (sendStatus : Int) (s : WinPcapState) :
    OpResult Unit :=
  match s, sendStatus with
  | s, _ =>
      match s.handle with
      | none => ⟨.exn .assertFail, [], s⟩
      | some h => ⟨.ok (), [.sendpacket h buf buf.length], s⟩

/-- WinPcap.stop: calls pcap_breakloop on whatever _handle holds,
including the Python None of a never-opened session. -/
def wpStop (s : WinPcapState) : OpResult Unit :=
  ⟨.ok (), [.breakloop s.handle], s⟩

/-- Sequential delivery of a packet trace to the registered handler:
each packet goes through packet_handler; a raised assert aborts the
loop. The ok value lists, per delivered packet, its header and the byte
string handed to the callback, in arrival order. -/
def deliverLoop (cb : PyCallable) : List Packet → PyResult (List (PktHdr × List Nat))
  | [] => .ok []
  | p :: ps =>
      match packet_handler cb p.hdr p.mem with
      | .exn e => .exn e
      | .ok bytes =>
          match deliverLoop cb ps with
          | .ok rest => .ok ((p.hdr, bytes) :: rest)
          | .exn e => .exn e

/-- Modelled from the spec: the native pcap_loop call (external
interfaces table and section 4.4 of the specification), which is not
part of this repository. Over an incoming finite trace of packets it
delivers each captured frame to the handler sequentially in arrival
order until limit frames have been delivered, a limit of zero or below
meaning unbounded, rendered here as delivering the whole finite trace. -/
def pcap_loop (cb : PyCallable) (limit : Int) (pkts : List Packet) :
    PyResult (List (PktHdr × List Nat)) :=
  if limit ≤ 0 then deliverLoop cb pkts
  else deliverLoop cb (pkts.take limit.toNat)

/-- WinPcap.run: asserts _handle is not None, stores the callback on
the instance, then runs the native loop with the registered handler
over the incoming packet trace. -/
def wpRun (cb : PyCallable) (limit : Int) (pkts : List Packet)
    (s : WinPcapState) : OpResult (List (PktHdr × List Nat)) :=
  match s.handle with
  | none => ⟨.exn .assertFail, [], s⟩
  | some h => ⟨pcap_loop cb limit pkts, [.loopCall h limit], ⟨some h, cb⟩⟩

/-- One client-visible operation on a WinPcap instance, carrying the
native outcomes the operation consumes. -/
inductive WpOp
  | enterOp (openRes : Nat)
  | exitOp
  | sendOp (buf : List Nat) (sendStatus : Int)
  | stopOp
  | runOp (cb : PyCallable) (limit : Int) (pkts : List Packet)
deriving Repr

/-- The instance state after one operation. -/
def wpStep (s : WinPcapState) : WpOp → WinPcapState
  | .enterOp r => (wpEnter r s).state
  | .exitOp => (wpExit s).state
  | .sendOp buf st => (wpSend buf st s).state
  | .stopOp => (wpStop s).state
  | .runOp cb limit pkts => (wpRun cb limit pkts s).state

/-- Whether the operation is an open that succeeded (raised nothing). -/
def opensOk (s : WinPcapState) : WpOp → Bool
  | .enterOp r => (wpEnter r s).res == .ok ()
  | _ => false

/-- Number of successful opens along a sequence of operations. -/
def countOpens : WinPcapState → List WpOp → Nat
  | _, [] => 0
  | s, op :: ops => (if opensOk s op then 1 else 0) + countOpens (wpStep s op) ops

/-! Helper lemmas. -/

lemma dictInsert_fresh (l : List (String × String)) (kv : String × String)
    (h : ∀ p ∈ l, p.1 ≠ kv.1) : dictInsert l kv = l ++ [kv] := by
  have hany : ¬ (l.any (fun p => p.1 == kv.1) = true) := by
    simp only [List.any_eq_true, beq_iff_eq, not_exists]
    intro p hp
    exact h p hp.1 hp.2
  simp [dictInsert, hany]

lemma list_devices_aux (devs : List (String × String)) :
    ∀ acc : List (String × String),
      (∀ d ∈ devs, ∀ a ∈ acc, a.1 ≠ d.1) →
      (devs.map Prod.fst).Nodup →
      devs.foldl dictInsert acc = acc ++ devs := by
  induction devs with
  | nil =>
      intro acc _ _
      simp
  | cons d ds ih =>
      intro acc hdisj hnd
      have h1 : dictInsert acc d = acc ++ [d] :=
        dictInsert_fresh acc d (fun p hp => hdisj d (by simp) p hp)
      rw [List.foldl_cons, h1]
      have hnd2 : (ds.map Prod.fst).Nodup := by
        rw [List.map_cons, List.nodup_cons] at hnd
        exact hnd.2
      have hnotmem : d.1 ∉ ds.map Prod.fst := by
        rw [List.map_cons, List.nodup_cons] at hnd
        exact hnd.1
      have hdisj2 : ∀ e ∈ ds, ∀ a ∈ acc ++ [d], a.1 ≠ e.1 := by
        intro e he a ha
        rcases List.mem_append.mp ha with hin | hin
        · exact hdisj e (List.mem_cons_of_mem _ he) a hin
        · have haeq : a = d := by simpa using hin
          subst haeq
          intro hcontra
          exact hnotmem (hcontra ▸ List.mem_map_of_mem Prod.fst he)
      rw [ih (acc ++ [d]) hdisj2 hnd2, List.append_assoc]
      rfl

lemma list_devices_nodup (devs : List (String × String))
    (h : (devs.map Prod.fst).Nodup) : list_devices devs = devs := by
  have := list_devices_aux devs [] (by intro d _ a ha; simp at ha) h
  simpa [list_devices] using this

lemma wpStep_keeps_handle (s : WinPcapState) (op : WpOp)
    (h : s.handle ≠ none) : (wpStep s op).handle ≠ none := by
  cases hh : s.handle with
  | none => exact absurd hh h
  | some v =>
      cases op with
      | enterOp r => simp [wpStep, wpEnter, hh]
      | exitOp => simp [wpStep, wpExit, hh]
      | sendOp buf st => simp [wpStep, wpSend, hh]
      | stopOp => simp [wpStop, wpStep, hh]
      | runOp cb limit pkts => simp [wpStep, wpRun, hh]

lemma opensOk_of_handle_some (s : WinPcapState) (op : WpOp)
    (h : s.handle ≠ none) : opensOk s op = false := by
  cases hh : s.handle with
  | none => exact absurd hh h
  | some v =>
      cases op with
      | enterOp r => simp [opensOk, wpEnter, hh]
      | exitOp => rfl
      | sendOp buf st => rfl
      | stopOp => rfl
      | runOp cb limit pkts => rfl

lemma countOpens_of_handle_some (ops : List WpOp) :
    ∀ s : WinPcapState, s.handle ≠ none → countOpens s ops = 0 := by
  induction ops with
  | nil =>
      intro s _
      rfl
  | cons op ops ih =>
      intro s h
      rw [countOpens, opensOk_of_handle_some s op h]
      simp [ih (wpStep s op) (wpStep_keeps_handle s op h)]

lemma wpStep_init_not_enter (op : WpOp) (h : ∀ r : Nat, op ≠ .enterOp r) :
    wpStep winPcapInit op = winPcapInit := by
  cases op with
  | enterOp r => exact absurd rfl (h r)
  | exitOp => rfl
  | sendOp buf st => rfl
  | stopOp => rfl
  | runOp cb limit pkts => rfl

lemma countOpens_init_le_one : ∀ ops : List WpOp, countOpens winPcapInit ops ≤ 1 := by
  intro ops
  induction ops with
  | nil => exact Nat.zero_le 1
  | cons op ops ih =>
      cases op with
      | enterOp r =>
          have hstep : wpStep winPcapInit (.enterOp r) = ⟨some r, .noneV⟩ := rfl
          have hrest : countOpens (wpStep winPcapInit (.enterOp r)) ops = 0 := by
            rw [hstep]
            exact countOpens_of_handle_some ops ⟨some r, .noneV⟩ (by simp)
          rw [countOpens, hrest]
          simp [opensOk, wpEnter, winPcapInit]
      | exitOp =>
          rw [countOpens, wpStep_init_not_enter _ (by intro r h; cases h)]
          simpa [opensOk] using ih
      | sendOp buf st =>
          rw [countOpens, wpStep_init_not_enter _ (by intro r h; cases h)]
          simpa [opensOk] using ih
      | stopOp =>
          rw [countOpens, wpStep_init_not_enter _ (by intro r h; cases h)]
          simpa [opensOk] using ih
      | runOp cb limit pkts =>
          rw [countOpens, wpStep_init_not_enter _ (by intro r h; cases h)]
          simpa [opensOk] using ih

lemma deliverLoop_good (cb : PyCallable)
    (hcb : (isfunction cb || ismethod cb) = true) (pkts : List Packet) :
    deliverLoop cb pkts
      = .ok (pkts.map (fun p => (p.hdr, string_at p.mem p.hdr.len))) := by
  induction pkts with
  | nil => rfl
  | cons p ps ih => simp [deliverLoop, packet_handler, hcb, ih]

/-! Claim theorems. -/

/-- C1: on a truncated frame with caplen 2 and on-wire length 5,
packet_handler hands the callback string_at of header.len = 5 bytes,
three of which lie beyond the captured data, instead of the
captured_length = 2 captured bytes: the code copies the on-wire length,
the claim requires the captured length. -/
theorem packet_handler_uses_wire_length :
    packet_handler .func ⟨7, 0, 2, 5⟩ [10, 20, 99, 98, 97]
        = .ok [10, 20, 99, 98, 97]
    ∧ string_at [10, 20, 99, 98, 97] 2 = [10, 20]
    ∧ ([10, 20, 99, 98, 97] : List Nat) ≠ [10, 20] :=
  ⟨by decide, by decide, by decide⟩

/-- C2: when pcap_open_live returns NULL (modelled as 0), __enter__
raises nothing and stores the null handle: the session does not report
OpenFailed and does not stay closed. -/
theorem enter_null_handle_not_failed :
    (wpEnter 0 winPcapInit).res = .ok ()
    ∧ (wpEnter 0 winPcapInit).state.handle = some 0 :=
  ⟨rfl, rfl⟩

/-- C3: after __enter__ and __exit__, _handle is still set, so send on
the closed session passes the assert and issues the native sendpacket
on the closed handle instead of failing with InvalidState. -/
theorem send_after_close_calls_native :
    (wpSend [7] 0 (wpExit (wpEnter 1 winPcapInit).state).state).res = .ok ()
    ∧ (wpSend [7] 0 (wpExit (wpEnter 1 winPcapInit).state).state).calls
        = [NativeCall.sendpacket 1 [7] 1] :=
  ⟨rfl, rfl⟩

/-- C4 counterexample: under case-sensitive matching no description of
the directory matches the pattern, so the claim demands the no-match
result, yet get_matching_device returns the device, because
fnmatch.fnmatch case-normalizes both strings. -/
theorem get_matching_device_case_insensitive :
    fnmatchcase "Intel Ethernet" "*ETHERNET*" = false
    ∧ get_matching_device [("d0", "Intel Ethernet")] "*ETHERNET*"
        = some ("d0", "Intel Ethernet") :=
  ⟨by decide, by decide⟩

/-- C4 (amended): over a directory whose device names are distinct, the
find operation returns the first device in directory order whose
description matches the pattern case-insensitively (fnmatch
case-normalizes pattern and description, as on Windows), and none when
no description matches; over the three example descriptions the
Ethernet pattern returns the Intel device and the NoSuch pattern
returns none. -/
theorem get_matching_device_first (devs : List (String × String)) (pat : String)
    (hnd : (devs.map Prod.fst).Nodup) :
    get_matching_device devs pat = devs.find? (fun nd => fnmatch nd.2 pat)
    ∧ get_matching_device
        [("d0", "Intel Ethernet"), ("d1", "Wi-Fi 6"), ("d2", "Loopback")]
        "*Ethernet*"
        = some ("d0", "Intel Ethernet")
    ∧ get_matching_device
        [("d0", "Intel Ethernet"), ("d1", "Wi-Fi 6"), ("d2", "Loopback")]
        "NoSuch*"
        = none := by
  refine ⟨?_, by decide, by decide⟩
  unfold get_matching_device
  rw [list_devices_nodup devs hnd]

/-- C4 witness: the amended description instantiated on the example
directory. -/
theorem get_matching_device_first_witness :
    get_matching_device
        [("d0", "Intel Ethernet"), ("d1", "Wi-Fi 6"), ("d2", "Loopback")]
        "*Ethernet*"
      = [("d0", "Intel Ethernet"), ("d1", "Wi-Fi 6"), ("d2", "Loopback")].find?
          (fun nd => fnmatch nd.2 "*Ethernet*") :=
  (get_matching_device_first
      [("d0", "Intel Ethernet"), ("d1", "Wi-Fi 6"), ("d2", "Loopback")]
      "*Ethernet*" (by decide)).1

/-- C5: the native sendpacket status is discarded: at the failing input
(open handle 1, one-byte buffer, native status -1) send still returns
normally and, for every status whatsoever, the whole outcome is the one
of status 0, so SendFailed is never raised and native send failures are
swallowed. -/
theorem send_ignores_native_status :
    (wpSend [7] (-1) ⟨some 1, .noneV⟩).res = .ok ()
    ∧ (wpSend [7] (-1) ⟨some 1, .noneV⟩).calls = [NativeCall.sendpacket 1 [7] 1]
    ∧ ∀ st : Int, wpSend [7] st ⟨some 1, .noneV⟩ = wpSend [7] 0 ⟨some 1, .noneV⟩ :=
  ⟨rfl, rfl, fun _ => rfl⟩

/-- C6: after a successful enter and an exit (which frees the native
list but leaves _all_devices set), the iterator guard does not fire:
iteration yields the freed native list instead of raising. -/
theorem iterator_after_close_reads_freed :
    devicesEnter (.ok [("d0", "Intel Ethernet")]) devicesInit
        = .ok ⟨some [("d0", "Intel Ethernet")], false⟩
    ∧ pcap_interface_iterator
        (devicesExit ⟨some [("d0", "Intel Ethernet")], false⟩).1
        = .yields [("d0", "Intel Ethernet")] true
    ∧ pcap_interface_iterator
        (devicesExit ⟨some [("d0", "Intel Ethernet")], false⟩).1
        ≠ .raised :=
  ⟨rfl, rfl, by decide⟩

/-- C7: along every sequence of operations on a fresh instance at most
one open succeeds; a second enter while the handle is set raises the
assert (the InvalidState of the specification), and so does an enter
after an exit, since exit never clears the handle: per instance the
lifecycle is exactly Closed to Open to Closed. -/
theorem winpcap_single_open (ops : List WpOp) (hOld r : Nat) (cb : PyCallable) :
    countOpens winPcapInit ops ≤ 1
    ∧ (wpEnter r ⟨some hOld, cb⟩).res = .exn .assertFail
    ∧ (wpEnter r (wpExit ⟨some hOld, cb⟩).state).res = .exn .assertFail :=
  ⟨countOpens_init_le_one ops, rfl, rfl⟩

/-- C8: on an open session with a function or bound-method callback,
run with a positive limit over a trace of at least limit packets
invokes the callback exactly limit times, sequentially in arrival
order, and returns without error; with a limit of zero or below it
delivers the whole trace (the unbounded case over a finite trace). -/
theorem run_delivers_limit_packets (h : Nat) (c cb : PyCallable) (limit : Int)
    (pkts : List Packet) (hcb : (isfunction cb || ismethod cb) = true) :
    (0 < limit → limit.toNat ≤ pkts.length →
        (wpRun cb limit pkts ⟨some h, c⟩).res
            = .ok ((pkts.take limit.toNat).map
                (fun p => (p.hdr, string_at p.mem p.hdr.len)))
          ∧ ((pkts.take limit.toNat).map
                (fun p => (p.hdr, string_at p.mem p.hdr.len))).length
              = limit.toNat)
    ∧ (limit ≤ 0 →
        (wpRun cb limit pkts ⟨some h, c⟩).res
            = .ok (pkts.map (fun p => (p.hdr, string_at p.mem p.hdr.len)))) := by
  constructor
  · intro hpos hlen
    have hnle : ¬ limit ≤ 0 := not_le.mpr hpos
    constructor
    · simp [wpRun, pcap_loop, hnle, deliverLoop_good cb hcb]
    · simp only [List.length_map, List.length_take]
      omega
  · intro hle
    simp [wpRun, pcap_loop, hle, deliverLoop_good cb hcb]

/-- C8 witness: a trace of five packets, limit three: exactly the first
three are delivered, in order, without error. -/
theorem run_delivers_limit_packets_witness :
    (wpRun .func 3
        [⟨⟨0, 0, 1, 1⟩, [1]⟩, ⟨⟨0, 1, 1, 1⟩, [2]⟩, ⟨⟨0, 2, 1, 1⟩, [3]⟩,
          ⟨⟨0, 3, 1, 1⟩, [4]⟩, ⟨⟨0, 4, 1, 1⟩, [5]⟩] ⟨some 1, .noneV⟩).res
        = .ok (([⟨⟨0, 0, 1, 1⟩, [1]⟩, ⟨⟨0, 1, 1, 1⟩, [2]⟩, ⟨⟨0, 2, 1, 1⟩, [3]⟩,
            ⟨⟨0, 3, 1, 1⟩, [4]⟩, ⟨⟨0, 4, 1, 1⟩, [5]⟩] : List Packet).take
              (Int.toNat 3) |>.map
                (fun p => (p.hdr, string_at p.mem p.hdr.len)))
      ∧ (([⟨⟨0, 0, 1, 1⟩, [1]⟩, ⟨⟨0, 1, 1, 1⟩, [2]⟩, ⟨⟨0, 2, 1, 1⟩, [3]⟩,
            ⟨⟨0, 3, 1, 1⟩, [4]⟩, ⟨⟨0, 4, 1, 1⟩, [5]⟩] : List Packet).take
              (Int.toNat 3) |>.map
                (fun p => (p.hdr, string_at p.mem p.hdr.len))).length
          = Int.toNat 3 :=
  (run_delivers_limit_packets 1 .noneV .func 3
      [⟨⟨0, 0, 1, 1⟩, [1]⟩, ⟨⟨0, 1, 1, 1⟩, [2]⟩, ⟨⟨0, 2, 1, 1⟩, [3]⟩,
        ⟨⟨0, 3, 1, 1⟩, [4]⟩, ⟨⟨0, 4, 1, 1⟩, [5]⟩]
      (by decide)).1 (by decide) (by decide)

/-- C9 counterexample: stop on a never-opened session is not a no-op
free of native interaction: it issues a native breakloop call whose
handle argument is the Python None, a null handle at the native
boundary. -/
theorem stop_never_opened_native_call :
    (wpStop winPcapInit).calls = [NativeCall.breakloop none]
    ∧ (wpStop winPcapInit).calls ≠ [] :=
  ⟨rfl, by decide⟩

/-- C9 (amended): on an open session with no receive loop running, stop
completes without a Python-level error, leaves the session state
unchanged and issues exactly one native breakloop on the open handle
(which the native interface defines to signal no failure); on a
never-opened session stop is not a no-op: it still issues the native
breakloop, passing the None handle. -/
theorem stop_behaviour (h : Nat) (cb : PyCallable) :
    (wpStop ⟨some h, cb⟩).res = .ok ()
    ∧ (wpStop ⟨some h, cb⟩).state = ⟨some h, cb⟩
    ∧ (wpStop ⟨some h, cb⟩).calls = [NativeCall.breakloop (some h)]
    ∧ (wpStop winPcapInit).calls = [NativeCall.breakloop none] :=
  ⟨rfl, rfl, rfl, rfl⟩

/-- C10: with the default None callback, or with a callable object that
is neither a plain function nor a bound method, the packet handler
assertion fails, and run on an open session delivering a first packet
raises that assertion instead of invoking the callback. -/
theorem handler_requires_function_or_method (hdr : PktHdr) (mem : List Nat)
    (hn : Nat) (c : PyCallable) (p : Packet) :
    packet_handler .noneV hdr mem = .exn .assertFail
    ∧ packet_handler .callableObj hdr mem = .exn .assertFail
    ∧ (wpRun .noneV 0 [p] ⟨some hn, c⟩).res = .exn .assertFail
    ∧ (wpRun .callableObj 0 [p] ⟨some hn, c⟩).res = .exn .assertFail :=
  ⟨rfl, rfl, rfl, rfl⟩

end Winpcapy
